import Mathlib

/-!
Verification of the mcp-explorer dashboard WebSocket layer and the
calculator tool server.

The definitions below are shallow embeddings of:
  - the `useWebSocket` React hook (message ring buffer, reconnect backoff,
    per-call request/response correlation with timeouts, request
    deduplication and caching);
  - the `ProtocolInspector` component's response pairing;
  - the calculator server's `CallToolRequestSchema` handler.
-/

namespace MCPExplorer

/-! ## Message ring buffer (useWebSocket, case 'new-message') -/

/-- JS `array.slice(-n)`: the last `min(length, n)` elements of the array. -/
def sliceLast (n : Nat) (l : List α) : List α := l.drop (l.length - n)

/-- The fixed message cap from `messages.slice(-100)` in the hook. -/
def MESSAGE_CAP : Nat := 100

/-- The 'new-message' branch of `ws.current.onmessage`:
`messages: [...prev.messages, data.data].slice(-100)`. -/
def appendMessage (msgs : List α) (m : α) : List α :=
  sliceLast MESSAGE_CAP (msgs ++ [m])

/-- Repeated delivery of 'new-message' events, oldest first. -/
def appendMessages (msgs : List α) (ms : List α) : List α :=
  ms.foldl appendMessage msgs

theorem length_sliceLast (n : Nat) (l : List α) :
    (sliceLast n l).length = min l.length n := by
  simp [sliceLast]
  omega

theorem sliceLast_suffix (n : Nat) (l : List α) : (sliceLast n l).IsSuffix l :=
  List.drop_suffix _ _

theorem length_appendMessage (msgs : List α) (m : α) :
    (appendMessage msgs m).length = min (msgs.length + 1) MESSAGE_CAP := by
  simp [appendMessage, length_sliceLast]

theorem length_appendMessages (msgs ms : List α) (h : ms ≠ []) :
    (appendMessages msgs ms).length = min (msgs.length + ms.length) MESSAGE_CAP := by
  induction ms generalizing msgs with
  | nil => exact absurd rfl h
  | cons m tl ih =>
    rcases eq_or_ne tl [] with rfl | htl
    · simp [appendMessages, length_appendMessage]
    · have := ih (appendMessage msgs m) htl
      simp only [appendMessages, List.foldl_cons] at this ⊢
      rw [this, length_appendMessage]
      simp only [MESSAGE_CAP, List.length_cons]
      omega

theorem appendMessages_suffix (msgs ms : List α) :
    (appendMessages msgs ms).IsSuffix (msgs ++ ms) := by
  induction ms generalizing msgs with
  | nil => simp [appendMessages]
  | cons m tl ih =>
    have h1 : (appendMessages (appendMessage msgs m) tl).IsSuffix
        ((appendMessage msgs m) ++ tl) := ih _
    have h2 : (appendMessage msgs m).IsSuffix (msgs ++ [m]) :=
      sliceLast_suffix _ _
    rcases h1 with ⟨s1, hs1⟩
    rcases h2 with ⟨s2, hs2⟩
    refine ⟨s2 ++ s1, ?_⟩
    show s2 ++ s1 ++ appendMessages (appendMessage msgs m) tl = msgs ++ (m :: tl)
    rw [List.append_assoc, hs1, ← List.append_assoc, hs2]
    simp

/-- Claim C7 — The message buffer retains exactly the most recent 100 events:
after `k ≥ 1` deliveries of 'new-message' events the stored list has length
`min (initial + k) 100`, it is always a suffix of the full stream (only the
oldest entries are dropped), and it never exceeds 100. -/
theorem messageBuffer_ring (init ms : List α) (k : Nat)
    (hk : 1 ≤ k) (hle : k ≤ ms.length) :
    (appendMessages init (ms.take k)).length = min (init.length + k) 100
    ∧ (appendMessages init (ms.take k)).IsSuffix (init ++ ms.take k)
    ∧ (appendMessages init (ms.take k)).length ≤ 100 := by
  have hne : ms.take k ≠ [] := by
    have hlt : (ms.take k).length = min k ms.length := List.length_take k ms
    intro hcon
    rw [hcon] at hlt
    simp at hlt
    omega
  have hlen := length_appendMessages init (ms.take k) hne
  rw [List.length_take, min_eq_left hle] at hlen
  refine ⟨hlen, appendMessages_suffix _ _, ?_⟩
  rw [hlen]
  simp [MESSAGE_CAP]

/-- Witness for `messageBuffer_ring` at a concrete input. -/
theorem messageBuffer_ring_witness :
    (appendMessages [0] ((List.range 150).take 120)).length = min (1 + 120) 100
    ∧ (appendMessages [0] ((List.range 150).take 120)).IsSuffix
        ([0] ++ (List.range 150).take 120)
    ∧ (appendMessages [0] ((List.range 150).take 120)).length ≤ 100 :=
  messageBuffer_ring [0] (List.range 150) 120 (by decide) (by simp)

/-! ## Reconnect backoff (useWebSocket, `ws.current.onclose`) -/

/-- The constant `maxReconnectAttempts = 5`. -/
def maxReconnectAttempts : Nat := 5

/-- The delay `Math.min(2000 + (currentAttempts * 1000), 10000)` — the delay scheduled
before the next automatic reconnect attempt, given the attempt count before
that attempt. -/
def reconnectDelay (currentAttempts : Nat) : Nat :=
  min (2000 + currentAttempts * 1000) 10000

/-- The hook state that the close handler touches. -/
structure WSState where
  connected : Bool
  reconnectAttempts : Nat
deriving DecidableEq, Repr

/-- The `onclose` handler: sets `connected: false`; if the close code is not
1000 and `currentAttempts < maxReconnectAttempts`, schedules a reconnect
timer with delay `reconnectDelay currentAttempts` and increments the
attempt counter; otherwise schedules nothing and leaves the counter as is.
The second component is the delay of the timer scheduled by this
invocation, if any. -/
def onCloseStep (code : Nat) (s : WSState) : WSState × Option Nat :=
  if code ≠ 1000 then
    if s.reconnectAttempts < maxReconnectAttempts then
      (⟨false, s.reconnectAttempts + 1⟩, some (reconnectDelay s.reconnectAttempts))
    else
      (⟨false, s.reconnectAttempts⟩, none)
  else
    (⟨false, s.reconnectAttempts⟩, none)

/-- The `manualReconnect` callback: resets the attempt counter to 0 and cancels any
pending timer before calling `connect()`. -/
def manualReconnect (s : WSState) : WSState :=
  ⟨s.connected, 0⟩

/-- A disconnection episode: consecutive close events (one per failed
automatic attempt), returning the final state and the list of delays
scheduled along the way. -/
def runCloses (s : WSState) : List Nat → WSState × List Nat
  | [] => (s, [])
  | c :: cs =>
    let p := onCloseStep c s
    let q := runCloses p.1 cs
    (q.1, p.2.toList ++ q.2)

theorem runCloses_delays (a : Nat) (conn : Bool) (codes : List Nat)
    (h : ∀ c ∈ codes, c ≠ 1000) :
    (runCloses ⟨conn, a⟩ codes).2 =
      (List.range (min codes.length (maxReconnectAttempts - a))).map
        (fun i => reconnectDelay (a + i)) := by
  induction codes generalizing a conn with
  | nil => simp [runCloses]
  | cons c cs ih =>
    have hc : c ≠ 1000 := h c (List.mem_cons_self c cs)
    have hcs : ∀ x ∈ cs, x ≠ 1000 := fun x hx => h x (List.mem_cons_of_mem c hx)
    by_cases ha : a < maxReconnectAttempts
    · have hstep : onCloseStep c ⟨conn, a⟩ =
          (⟨false, a + 1⟩, some (reconnectDelay a)) := by
        simp [onCloseStep, hc, ha]
      have hmin : min (cs.length + 1) (maxReconnectAttempts - a)
          = min cs.length (maxReconnectAttempts - (a + 1)) + 1 := by
        simp only [maxReconnectAttempts] at ha ⊢
        omega
      simp only [runCloses, hstep, ih (a + 1) false hcs, List.length_cons,
        Option.toList_some, hmin, List.range_succ_eq_map, List.map_cons,
        List.map_map, List.singleton_append, List.cons.injEq]
      refine ⟨by simp, ?_⟩
      apply List.map_congr_left
      intro i _
      simp [Function.comp]
      ring_nf
    · have hstep : onCloseStep c ⟨conn, a⟩ = (⟨false, a⟩, none) := by
        simp [onCloseStep, hc, ha]
      have hz : maxReconnectAttempts - a = 0 := by
        simp only [maxReconnectAttempts] at ha ⊢
        omega
      simp [runCloses, hstep, ih a false hcs, hz]

/-- Claim C3 — Within one disconnection episode (attempt counter starting at
0, every close abnormal), the delay scheduled before the (i+1)-th automatic
reconnect attempt is `min (2000 + i*1000) 10000` where `i` is the attempt
count before that attempt; the delay sequence is non-decreasing and never
exceeds the 10-second cap. -/
theorem reconnectBackoff_delays (conn : Bool) (codes : List Nat)
    (h : ∀ c ∈ codes, c ≠ 1000) :
    ((runCloses ⟨conn, 0⟩ codes).2.length = min codes.length 5)
    ∧ (∀ i (hi : i < (runCloses ⟨conn, 0⟩ codes).2.length),
        (runCloses ⟨conn, 0⟩ codes).2.get ⟨i, hi⟩ = min (2000 + i * 1000) 10000)
    ∧ (∀ i j (hi : i < (runCloses ⟨conn, 0⟩ codes).2.length)
        (hj : j < (runCloses ⟨conn, 0⟩ codes).2.length), i ≤ j →
        (runCloses ⟨conn, 0⟩ codes).2.get ⟨i, hi⟩ ≤
          (runCloses ⟨conn, 0⟩ codes).2.get ⟨j, hj⟩)
    ∧ (∀ d ∈ (runCloses ⟨conn, 0⟩ codes).2, d ≤ 10000) := by
  have hd := runCloses_delays 0 conn codes h
  have hget : ∀ i (hi : i < (runCloses ⟨conn, 0⟩ codes).2.length),
      (runCloses ⟨conn, 0⟩ codes).2.get ⟨i, hi⟩ = reconnectDelay i := by
    intro i hi
    rw [List.get_eq_getElem]
    simp only [hd, List.getElem_map, List.getElem_range]
    simp
  refine ⟨?_, ?_, ?_, ?_⟩
  · rw [hd]
    simp [maxReconnectAttempts]
  · intro i hi
    rw [hget i hi]
    rfl
  · intro i j hi hj hij
    rw [hget i hi, hget j hj]
    simp only [reconnectDelay]
    omega
  · intro d hdmem
    rw [hd] at hdmem
    simp only [List.mem_map, List.mem_range] at hdmem
    obtain ⟨i, _, rfl⟩ := hdmem
    simp only [reconnectDelay]
    omega

/-- Witness for `reconnectBackoff_delays`: a 7-failure episode schedules
exactly 5 delays, and the delay before the 5th attempt is 6000ms. -/
theorem reconnectBackoff_delays_witness :
    ((runCloses ⟨true, 0⟩ [1006, 1006, 1006, 1006, 1006, 1006, 1006]).2.length
      = min 7 5)
    ∧ (runCloses ⟨true, 0⟩ [1006, 1006, 1006, 1006, 1006, 1006, 1006]).2.get
        ⟨4, by decide⟩ = min (2000 + 4 * 1000) 10000 := by
  have hc : ∀ c ∈ [1006, 1006, 1006, 1006, 1006, 1006, 1006], c ≠ 1000 := by
    decide
  have h := reconnectBackoff_delays true [1006, 1006, 1006, 1006, 1006, 1006, 1006] hc
  exact ⟨h.1, h.2.1 4 (by decide)⟩

theorem runCloses_maxed (conn : Bool) (codes : List Nat) :
    (runCloses ⟨conn, maxReconnectAttempts⟩ codes).2 = []
    ∧ (runCloses ⟨conn, maxReconnectAttempts⟩ codes).1.reconnectAttempts
        = maxReconnectAttempts
    ∧ (codes ≠ [] →
        (runCloses ⟨conn, maxReconnectAttempts⟩ codes).1.connected = false)
    ∧ (codes = [] →
        (runCloses ⟨conn, maxReconnectAttempts⟩ codes).1.connected = conn) := by
  induction codes generalizing conn with
  | nil => simp [runCloses]
  | cons c cs ih =>
    have hstep : onCloseStep c ⟨conn, maxReconnectAttempts⟩ =
        (⟨false, maxReconnectAttempts⟩, none) := by
      by_cases hc : c ≠ 1000 <;> simp [onCloseStep, hc]
    have h := ih false
    refine ⟨?_, ?_, ?_, ?_⟩
    · simp only [runCloses, hstep, Option.toList_none, List.nil_append]
      exact h.1
    · simp only [runCloses, hstep]
      exact h.2.1
    · intro _
      simp only [runCloses, hstep]
      rcases eq_or_ne cs [] with rfl | hcs
      · exact h.2.2.2 rfl
      · exact h.2.2.1 hcs
    · intro hcon
      exact absurd hcon (List.cons_ne_nil c cs)

/-- Claim C4 — Once `reconnectAttempts` equals `maxReconnectAttempts` (5), no
further close event ever schedules a reconnect timer: over any sequence of
close events the list of scheduled delays is empty, the attempt counter
stays at 5, and the status stays disconnected; only `manualReconnect`
resets the counter to 0. -/
theorem reconnectCap_noSixthAttempt (conn : Bool) (codes : List Nat)
    (hne : codes ≠ []) :
    (runCloses ⟨conn, maxReconnectAttempts⟩ codes).2 = []
    ∧ (runCloses ⟨conn, maxReconnectAttempts⟩ codes).1.reconnectAttempts
        = maxReconnectAttempts
    ∧ (runCloses ⟨conn, maxReconnectAttempts⟩ codes).1.connected = false
    ∧ (manualReconnect
        (runCloses ⟨conn, maxReconnectAttempts⟩ codes).1).reconnectAttempts = 0 := by
  obtain ⟨h1, h2, h3, _⟩ := runCloses_maxed conn codes
  exact ⟨h1, h2, h3 hne, rfl⟩

/-- Witness for `reconnectCap_noSixthAttempt` at a concrete input. -/
theorem reconnectCap_noSixthAttempt_witness :
    (runCloses ⟨false, maxReconnectAttempts⟩ [1006, 1006]).2 = []
    ∧ (runCloses ⟨false, maxReconnectAttempts⟩ [1006, 1006]).1.reconnectAttempts
        = maxReconnectAttempts
    ∧ (runCloses ⟨false, maxReconnectAttempts⟩ [1006, 1006]).1.connected = false
    ∧ (manualReconnect
        (runCloses ⟨false, maxReconnectAttempts⟩ [1006, 1006]).1).reconnectAttempts
        = 0 :=
  reconnectCap_noSixthAttempt false [1006, 1006] (by decide)

/-!
## Per-call request/response correlation

Each outbound observer call (`executeTool`, `listTools`, `listResources`,
`readResource`) creates a promise, arms a `setTimeout`, attaches a
per-call `handleResponse` message listener matched by a generated
`requestId`, and sends the command. The calls differ only in the response
`type` they match, whether the success branch calls `setCachedResult`, and
whether their branches delete the `ongoingRequests` entry.
-/

/-- A parsed control-channel message as seen by a `handleResponse`
listener: its `type`, `requestId`, truthy `error` (with its message) and
`result` payload. -/
structure WireMsg where
  msgType : String
  requestId : String
  error : Option String
  result : String
deriving DecidableEq, Repr

/-- An event affecting one in-flight call: an incoming WebSocket message
(`none` models a JSON parse failure, swallowed by the listener's catch) or
the firing of the call's `setTimeout`. -/
inductive CallEvent where
  | recv (m : Option WireMsg)
  | timerFire
deriving DecidableEq, Repr

/-- How the call's promise settled. -/
inductive Settle where
  | resolved (v : String)
  | rejectedErr (msg : String)
  | rejectedTimeout
deriving DecidableEq, Repr

/-- The observable state of one in-flight call. `settleCount` counts
pending-to-settled transitions of the promise (JS promise semantics: later
resolve/reject calls on a settled promise are no-ops). `cacheWrites` lists
the results passed to `setCachedResult` by this call. -/
structure CallState where
  outcome : Option Settle
  settleCount : Nat
  listenerAttached : Bool
  timerArmed : Bool
  cacheWrites : List String
  ongoingDeleted : Bool
deriving DecidableEq, Repr

/-- What distinguishes the four call sites. -/
structure CallKind where
  responseType : String
  cachesResult : Bool
  deletesOngoing : Bool
deriving DecidableEq, Repr

/-- Kind `executeTool`: matches 'tool-response', caches successes, no
`ongoingRequests` entry. -/
def executeToolKind : CallKind := ⟨"tool-response", true, false⟩

/-- Kind `listTools`: matches 'tools-response', caches successes, deletes its
`ongoingRequests` entry in the error, success and timeout branches. -/
def listToolsKind : CallKind := ⟨"tools-response", true, true⟩

/-- Kind `listResources`: matches 'resources-response', caches successes,
deletes its `ongoingRequests` entry in all branches. -/
def listResourcesKind : CallKind := ⟨"resources-response", true, true⟩

/-- Kind `readResource`: matches 'read-resource-response'; neither caches nor
uses `ongoingRequests`. -/
def readResourceKind : CallKind := ⟨"read-resource-response", false, false⟩

/-- JS promise settlement: the first resolve/reject wins, later calls are
no-ops. -/
def settle (s : CallState) (o : Settle) : CallState :=
  if s.outcome.isSome then s
  else { s with outcome := some o, settleCount := s.settleCount + 1 }

/-- The call `ongoingRequests.current.delete(requestKey)` when the kind uses the
dedup map. -/
def deleteOngoing (k : CallKind) (s : CallState) : CallState :=
  if k.deletesOngoing then { s with ongoingDeleted := true } else s

/-- The call `setCachedResult(requestKey, data.result)` when the kind caches. -/
def writeCache (k : CallKind) (r : String) (s : CallState) : CallState :=
  if k.cachesResult then { s with cacheWrites := s.cacheWrites ++ [r] } else s

/-- The body of `handleResponse` once `data.type` and `data.requestId`
match: `clearTimeout`; `removeEventListener`; then either the error branch
(reject) or the success branch (cache the result, resolve). -/
def onMatch (k : CallKind) (m : WireMsg) (s : CallState) : CallState :=
  let s1 := { s with timerArmed := false, listenerAttached := false }
  match m.error with
  | some e => settle (deleteOngoing k s1) (.rejectedErr e)
  | none => settle (deleteOngoing k (writeCache k m.result s1)) (.resolved m.result)

/-- The `setTimeout` callback: if the timer is still armed it fires,
deletes the `ongoingRequests` entry (for the kinds that have one) and
rejects with the timeout error. It does not remove the message listener. -/
def onTimerFire (k : CallKind) (s : CallState) : CallState :=
  if s.timerArmed then
    settle (deleteOngoing k { s with timerArmed := false }) .rejectedTimeout
  else s

/-- One event of a call's lifetime. A received message reaches
`handleResponse` only while the listener is attached; non-matching or
unparseable messages are ignored. -/
def callStep (k : CallKind) (reqId : String) (s : CallState) :
    CallEvent → CallState
  | .recv none => s
  | .recv (some m) =>
    if s.listenerAttached ∧ m.msgType = k.responseType ∧ m.requestId = reqId
    then onMatch k m s else s
  | .timerFire => onTimerFire k s

/-- State right after the call is issued: promise pending, listener
attached, timeout armed. -/
def initCallState : CallState := ⟨none, 0, true, true, [], false⟩

/-- Run a call against a trace of events. -/
def runCall (k : CallKind) (reqId : String) (tr : List CallEvent) : CallState :=
  tr.foldl (callStep k reqId) initCallState

/-- An event that necessarily settles a still-pending call: the timeout
firing, or a message matching the call's response type and request id. -/
def isTrigger (k : CallKind) (reqId : String) : CallEvent → Bool
  | .recv none => false
  | .recv (some m) => m.msgType == k.responseType && m.requestId == reqId
  | .timerFire => true

/-- A message event carrying a matching successful (non-error) response. -/
def isMatchingSuccess (k : CallKind) (reqId : String) : CallEvent → Bool
  | .recv (some m) =>
      m.msgType == k.responseType && m.requestId == reqId && m.error == none
  | _ => false

/-- The core invariant of one call: the settle count is 1 exactly when the
promise has settled, and while the promise is pending both the listener
and the timer are still in place. -/
def CallInv (s : CallState) : Prop :=
  s.settleCount = (if s.outcome.isSome then 1 else 0)
  ∧ (s.outcome = none → s.listenerAttached = true ∧ s.timerArmed = true)

@[simp] theorem deleteOngoing_outcome (k : CallKind) (s : CallState) :
    (deleteOngoing k s).outcome = s.outcome := by
  unfold deleteOngoing
  split <;> rfl

@[simp] theorem deleteOngoing_settleCount (k : CallKind) (s : CallState) :
    (deleteOngoing k s).settleCount = s.settleCount := by
  unfold deleteOngoing
  split <;> rfl

@[simp] theorem deleteOngoing_listener (k : CallKind) (s : CallState) :
    (deleteOngoing k s).listenerAttached = s.listenerAttached := by
  unfold deleteOngoing
  split <;> rfl

@[simp] theorem deleteOngoing_cacheWrites (k : CallKind) (s : CallState) :
    (deleteOngoing k s).cacheWrites = s.cacheWrites := by
  unfold deleteOngoing
  split <;> rfl

@[simp] theorem writeCache_outcome (k : CallKind) (r : String) (s : CallState) :
    (writeCache k r s).outcome = s.outcome := by
  unfold writeCache
  split <;> rfl

@[simp] theorem writeCache_settleCount (k : CallKind) (r : String)
    (s : CallState) : (writeCache k r s).settleCount = s.settleCount := by
  unfold writeCache
  split <;> rfl

@[simp] theorem writeCache_listener (k : CallKind) (r : String)
    (s : CallState) : (writeCache k r s).listenerAttached = s.listenerAttached := by
  unfold writeCache
  split <;> rfl

@[simp] theorem settle_outcome_isSome (s : CallState) (o : Settle) :
    (settle s o).outcome.isSome = true := by
  unfold settle
  split
  · assumption
  · rfl

@[simp] theorem settle_settleCount (s : CallState) (o : Settle) :
    (settle s o).settleCount =
      if s.outcome.isSome then s.settleCount else s.settleCount + 1 := by
  unfold settle
  split <;> simp_all

@[simp] theorem settle_listener (s : CallState) (o : Settle) :
    (settle s o).listenerAttached = s.listenerAttached := by
  unfold settle
  split <;> rfl

@[simp] theorem settle_cacheWrites (s : CallState) (o : Settle) :
    (settle s o).cacheWrites = s.cacheWrites := by
  unfold settle
  split <;> rfl

theorem settle_outcome_of_some (s : CallState) (o : Settle)
    (h : s.outcome.isSome) : (settle s o).outcome = s.outcome := by
  unfold settle
  simp [h]

theorem onMatch_outcome_isSome (k : CallKind) (m : WireMsg) (s : CallState) :
    (onMatch k m s).outcome.isSome = true := by
  unfold onMatch
  cases m.error <;> simp

theorem onMatch_settleCount (k : CallKind) (m : WireMsg) (s : CallState) :
    (onMatch k m s).settleCount =
      if s.outcome.isSome then s.settleCount else s.settleCount + 1 := by
  unfold onMatch
  cases m.error <;> simp

theorem callStep_inv (k : CallKind) (reqId : String) (s : CallState)
    (e : CallEvent) (h : CallInv s) : CallInv (callStep k reqId s e) := by
  obtain ⟨hc, hp⟩ := h
  cases e with
  | recv m =>
    cases m with
    | none => exact ⟨hc, hp⟩
    | some m =>
      simp only [callStep]
      split
      · constructor
        · rw [onMatch_settleCount, onMatch_outcome_isSome]
          cases ho : s.outcome.isSome <;> simp_all
        · intro hcon
          have := onMatch_outcome_isSome k m s
          rw [hcon] at this
          simp at this
      · exact ⟨hc, hp⟩
  | timerFire =>
    simp only [callStep, onTimerFire]
    split
    · constructor
      · simp only [settle_settleCount, settle_outcome_isSome,
          deleteOngoing_outcome, deleteOngoing_settleCount, if_true]
        cases ho : s.outcome.isSome <;> simp_all
      · intro hcon
        have : (settle (deleteOngoing k { s with timerArmed := false })
            Settle.rejectedTimeout).outcome.isSome = true := settle_outcome_isSome _ _
        rw [hcon] at this
        simp at this
    · exact ⟨hc, hp⟩

theorem callStep_outcome_persists (k : CallKind) (reqId : String)
    (s : CallState) (e : CallEvent) (h : s.outcome.isSome) :
    (callStep k reqId s e).outcome = s.outcome := by
  cases e with
  | recv m =>
    cases m with
    | none => rfl
    | some m =>
      simp only [callStep]
      split
      · unfold onMatch
        cases m.error <;> simp [settle_outcome_of_some, h]
      · rfl
  | timerFire =>
    simp only [callStep, onTimerFire]
    split
    · rw [settle_outcome_of_some]
      · simp
      · simpa using h
    · rfl

theorem foldl_outcome_persists (k : CallKind) (reqId : String)
    (s : CallState) (tr : List CallEvent) (h : s.outcome.isSome) :
    (tr.foldl (callStep k reqId) s).outcome = s.outcome := by
  induction tr generalizing s with
  | nil => rfl
  | cons e tl ih =>
    rw [List.foldl_cons]
    have he := callStep_outcome_persists k reqId s e h
    rw [ih (callStep k reqId s e) (by rw [he]; exact h), he]

theorem callStep_trigger_settles (k : CallKind) (reqId : String)
    (s : CallState) (e : CallEvent) (hinv : CallInv s)
    (ht : isTrigger k reqId e = true) :
    (callStep k reqId s e).outcome.isSome = true := by
  cases ho : s.outcome.isSome
  · have hnone : s.outcome = none := by
      cases hoo : s.outcome
      · rfl
      · rw [hoo] at ho
        simp at ho
    obtain ⟨hla, hta⟩ := hinv.2 hnone
    cases e with
    | recv m =>
      cases m with
      | none => simp [isTrigger] at ht
      | some m =>
        simp only [isTrigger, Bool.and_eq_true, beq_iff_eq] at ht
        simp only [callStep, hla, ht.1, ht.2, and_self, if_true, true_and]
        exact onMatch_outcome_isSome k m s
    | timerFire =>
      simp only [callStep, onTimerFire, hta, if_true]
      exact settle_outcome_isSome _ _
  · rw [callStep_outcome_persists k reqId s e ho]
    exact ho

theorem foldl_callInv (k : CallKind) (reqId : String) (s : CallState)
    (tr : List CallEvent) (h : CallInv s) :
    CallInv (tr.foldl (callStep k reqId) s) := by
  induction tr generalizing s with
  | nil => exact h
  | cons e tl ih =>
    rw [List.foldl_cons]
    exact ih _ (callStep_inv k reqId s e h)

theorem initCallState_inv : CallInv initCallState := by
  constructor <;> simp [initCallState]

theorem runCall_inv (k : CallKind) (reqId : String) (tr : List CallEvent) :
    CallInv (runCall k reqId tr) :=
  foldl_callInv k reqId initCallState tr initCallState_inv

theorem foldl_trigger_settled (k : CallKind) (reqId : String) (s : CallState)
    (tr : List CallEvent) (hinv : CallInv s)
    (h : ∃ e ∈ tr, isTrigger k reqId e = true) :
    (tr.foldl (callStep k reqId) s).outcome.isSome = true := by
  induction tr generalizing s with
  | nil =>
    obtain ⟨e, he, _⟩ := h
    exact absurd he (List.not_mem_nil e)
  | cons e tl ih =>
    rw [List.foldl_cons]
    obtain ⟨f, hf, hft⟩ := h
    rcases List.mem_cons.mp hf with rfl | hmem
    · have := callStep_trigger_settles k reqId s f hinv hft
      rw [foldl_outcome_persists k reqId _ tl this]
      exact this
    · exact ih _ (callStep_inv k reqId s e hinv) ⟨f, hmem, hft⟩

/-- Claim C2 — Every in-flight call settles exactly once: the settle count is
1 exactly when the promise has settled (so never more than one
pending-to-settled transition), and any trace containing a matching
response or the firing of the always-armed timeout leaves the call settled
with settle count exactly 1. -/
theorem pendingCommand_settles_exactly_once (k : CallKind) (reqId : String)
    (tr : List CallEvent)
    (h : ∃ e ∈ tr, isTrigger k reqId e = true) :
    (runCall k reqId tr).settleCount =
      (if (runCall k reqId tr).outcome.isSome then 1 else 0)
    ∧ (runCall k reqId tr).settleCount ≤ 1
    ∧ (runCall k reqId tr).outcome.isSome = true
    ∧ (runCall k reqId tr).settleCount = 1 := by
  have hinv := runCall_inv k reqId tr
  have hs : (runCall k reqId tr).outcome.isSome = true :=
    foldl_trigger_settled k reqId initCallState tr initCallState_inv h
  refine ⟨hinv.1, ?_, hs, ?_⟩
  · rw [hinv.1]
    split <;> omega
  · rw [hinv.1, hs]
    rfl

/-- Witness for `pendingCommand_settles_exactly_once`: an `executeTool`
call whose timeout fires. -/
theorem pendingCommand_settles_exactly_once_witness :
    (runCall executeToolKind "tool_1" [CallEvent.timerFire]).settleCount =
      (if (runCall executeToolKind "tool_1" [CallEvent.timerFire]).outcome.isSome
        then 1 else 0)
    ∧ (runCall executeToolKind "tool_1" [CallEvent.timerFire]).settleCount ≤ 1
    ∧ (runCall executeToolKind "tool_1" [CallEvent.timerFire]).outcome.isSome = true
    ∧ (runCall executeToolKind "tool_1" [CallEvent.timerFire]).settleCount = 1 :=
  pendingCommand_settles_exactly_once executeToolKind "tool_1"
    [CallEvent.timerFire] ⟨CallEvent.timerFire, by simp, rfl⟩

/-- Claim C9 counterexample — The claim that the per-call listener is
removed when the timeout fires is false: after an `executeTool` call's
timeout fires, the promise is rejected with the timeout error, yet the
message listener is still attached. -/
theorem listenerRemoval_counterexample :
    (runCall executeToolKind "tool_1" [CallEvent.timerFire]).outcome
      = some Settle.rejectedTimeout
    ∧ (runCall executeToolKind "tool_1" [CallEvent.timerFire]).listenerAttached
      = true := by
  constructor <;> rfl

/-- Claim C9 amended — The listener is removed exactly when a matching
response is processed: a matching message received while the listener is
attached detaches it, while the timeout callback never changes the
listener's attachment. -/
theorem listenerRemoval_amended (k : CallKind) (reqId : String)
    (s : CallState) (e : CallEvent) :
    (e = CallEvent.timerFire →
      (callStep k reqId s e).listenerAttached = s.listenerAttached)
    ∧ (∀ m : WireMsg, e = CallEvent.recv (some m) →
        s.listenerAttached = true → m.msgType = k.responseType →
        m.requestId = reqId →
        (callStep k reqId s e).listenerAttached = false) := by
  constructor
  · rintro rfl
    simp only [callStep, onTimerFire]
    split
    · rw [settle_listener, deleteOngoing_listener]
    · rfl
  · rintro m rfl hla hty hid
    simp only [callStep, hla, hty, hid, and_self, if_true, true_and]
    unfold onMatch
    cases m.error
    · rw [settle_listener, deleteOngoing_listener, writeCache_listener]
    · rw [settle_listener, deleteOngoing_listener]

/-- Witness for `listenerRemoval_amended` at concrete inputs. -/
theorem listenerRemoval_amended_witness :
    ((callStep executeToolKind "tool_1" initCallState
        CallEvent.timerFire).listenerAttached = initCallState.listenerAttached)
    ∧ ((callStep executeToolKind "tool_1" initCallState
        (CallEvent.recv (some ⟨"tool-response", "tool_1", none, "ok"⟩))).listenerAttached
        = false) :=
  ⟨(listenerRemoval_amended executeToolKind "tool_1" initCallState
      CallEvent.timerFire).1 rfl,
   (listenerRemoval_amended executeToolKind "tool_1" initCallState
      (CallEvent.recv (some ⟨"tool-response", "tool_1", none, "ok"⟩))).2
      ⟨"tool-response", "tool_1", none, "ok"⟩ rfl rfl rfl rfl⟩

/-- Claim C6 counterexample — The claim that no execution path ending in
rejection invokes `setCachedResult` for the request key is false: a
`listTools` call whose timeout fires (so the call rejects) still has its
listener attached, and a matching success response arriving afterwards is
cached even though the call ended in rejection. -/
theorem failedCallNotCached_counterexample :
    (runCall listToolsKind "tools_1"
      [CallEvent.timerFire,
       CallEvent.recv (some ⟨"tools-response", "tools_1", none, "late"⟩)]).outcome
      = some Settle.rejectedTimeout
    ∧ (runCall listToolsKind "tools_1"
      [CallEvent.timerFire,
       CallEvent.recv (some ⟨"tools-response", "tools_1", none, "late"⟩)]).cacheWrites
      = ["late"] := by
  constructor <;> rfl

theorem callStep_cacheWrites_of_no_success (k : CallKind) (reqId : String)
    (s : CallState) (e : CallEvent)
    (h : isMatchingSuccess k reqId e = false) :
    (callStep k reqId s e).cacheWrites = s.cacheWrites := by
  cases e with
  | recv m =>
    cases m with
    | none => rfl
    | some m =>
      simp only [callStep]
      split
      · rename_i hmatch
        unfold onMatch
        cases herr : m.error with
        | some msg => rw [settle_cacheWrites, deleteOngoing_cacheWrites]
        | none =>
          exfalso
          have htrue : isMatchingSuccess k reqId (CallEvent.recv (some m)) = true := by
            simp [isMatchingSuccess, hmatch.2.1, hmatch.2.2, herr]
          rw [h] at htrue
          exact Bool.false_ne_true htrue
      · rfl
  | timerFire =>
    simp only [callStep, onTimerFire]
    split
    · rw [settle_cacheWrites, deleteOngoing_cacheWrites]
    · rfl

/-- Claim C6 amended — The error-response and timeout branches themselves
never invoke `setCachedResult`: a trace containing no matching success
response produces no cache write at all, so a failed call's error is never
cached. (Only a matching success response — possibly arriving after a
timeout rejection, through the still-attached listener — is ever cached.) -/
theorem failedCallNotCached_amended (k : CallKind) (reqId : String)
    (tr : List CallEvent)
    (h : ∀ e ∈ tr, isMatchingSuccess k reqId e = false) :
    (runCall k reqId tr).cacheWrites = [] := by
  rw [runCall]
  have : ∀ (s : CallState), (tr.foldl (callStep k reqId) s).cacheWrites
      = s.cacheWrites := by
    induction tr with
    | nil => intro s; rfl
    | cons e tl ih =>
      intro s
      rw [List.foldl_cons]
      have he : isMatchingSuccess k reqId e = false :=
        h e (List.mem_cons_self e tl)
      rw [ih (fun x hx => h x (List.mem_cons_of_mem e hx)),
        callStep_cacheWrites_of_no_success k reqId s e he]
  rw [this initCallState]
  rfl

/-- Witness for `failedCallNotCached_amended`: a `listTools` call that gets
an error response and then times out writes nothing to the cache. -/
theorem failedCallNotCached_amended_witness :
    (runCall listToolsKind "tools_1"
      [CallEvent.recv (some ⟨"tools-response", "tools_1", some "boom", ""⟩),
       CallEvent.timerFire]).cacheWrites = [] :=
  failedCallNotCached_amended listToolsKind "tools_1"
    [CallEvent.recv (some ⟨"tools-response", "tools_1", some "boom", ""⟩),
     CallEvent.timerFire] (by decide)

/-!
## Request deduplication and caching (`listTools` / `listResources` entry)

`ongoingRequests` maps a request key to the pending promise;
`requestCache` maps it to a timestamped result with a 2-second freshness
window. A `listTools` call first checks the cache, then the ongoing map,
and only then creates a new promise, records it as ongoing and sends one
backend message.
-/

/-- The constant `CACHE_DURATION = 2000` (milliseconds). -/
def CACHE_DURATION : Nat := 2000

/-- The key `createRequestKey(type, serverName, params)`:
`` `${type}:${serverName}:${paramString}` `` where `paramString` is the
serialized params or the empty string. -/
def createRequestKey (ty serverName : String) (params : Option String) : String :=
  ty ++ ":" ++ serverName ++ ":" ++ params.getD ""

/-- The hook's dedup/cache state plus the list of request keys for which a
backend message has been sent. -/
structure DedupState where
  cacheEntry : String → Option (Nat × String)
  ongoing : String → Option Nat
  nextPromiseId : Nat
  sent : List String

/-- The lookup `getCachedResult(requestKey)`: the cached result if it is younger than
`CACHE_DURATION`. -/
def getCachedResult (s : DedupState) (requestKey : String) (now : Nat) :
    Option String :=
  match s.cacheEntry requestKey with
  | some (ts, r) => if now - ts < CACHE_DURATION then some r else none
  | none => none

/-- What a coordinator entry call hands back to its caller: an
already-resolved cached value, or a (possibly shared) pending promise. -/
inductive CallReturn where
  | cachedValue (r : String)
  | pendingPromise (pid : Nat)
deriving DecidableEq, Repr

/-- The entry `listTools(serverName)` (the `listResources` entry is identical up to
the key prefix and response type): check the cache; then the ongoing map,
reusing the existing in-flight promise; otherwise create a fresh promise,
record it in `ongoingRequests` and send one `list-tools` backend message. -/
def listToolsEntry (serverName : String) (now : Nat) (s : DedupState) :
    CallReturn × DedupState :=
  let requestKey := createRequestKey "listTools" serverName none
  match getCachedResult s requestKey now with
  | some r => (.cachedValue r, s)
  | none =>
    match s.ongoing requestKey with
    | some pid => (.pendingPromise pid, s)
    | none =>
      let pid := s.nextPromiseId
      (.pendingPromise pid,
       { s with
          ongoing := fun key => if key = requestKey then some pid else s.ongoing key,
          nextPromiseId := pid + 1,
          sent := s.sent ++ [requestKey] })

/-- Claim C5 — Two identical `list-tools` calls for the same server, the
second issued while the first is still in flight (no fresh cache entry,
first call's promise still in `ongoingRequests`): the first call creates a
pending promise and sends exactly one backend message; the second call
returns that same pending promise and sends nothing more, so both callers
resolve with the same (hence equal) content. -/
theorem listTools_dedup (serverName : String) (now later : Nat)
    (s : DedupState)
    (hcache : getCachedResult s (createRequestKey "listTools" serverName none) now
      = none)
    (hcache2 : getCachedResult s (createRequestKey "listTools" serverName none) later
      = none)
    (hongoing : s.ongoing (createRequestKey "listTools" serverName none) = none) :
    (listToolsEntry serverName now s).1
      = CallReturn.pendingPromise s.nextPromiseId
    ∧ (listToolsEntry serverName now s).2.sent
      = s.sent ++ [createRequestKey "listTools" serverName none]
    ∧ (listToolsEntry serverName later
        (listToolsEntry serverName now s).2).1
      = CallReturn.pendingPromise s.nextPromiseId
    ∧ (listToolsEntry serverName later
        (listToolsEntry serverName now s).2).2.sent
      = s.sent ++ [createRequestKey "listTools" serverName none] := by
  have h1 : listToolsEntry serverName now s =
      (CallReturn.pendingPromise s.nextPromiseId,
       { s with
          ongoing := fun key =>
            if key = createRequestKey "listTools" serverName none
            then some s.nextPromiseId
            else s.ongoing key,
          nextPromiseId := s.nextPromiseId + 1,
          sent := s.sent ++ [createRequestKey "listTools" serverName none] }) := by
    rw [listToolsEntry, hcache, hongoing]
  have hcache2' : getCachedResult (listToolsEntry serverName now s).2
      (createRequestKey "listTools" serverName none) later = none := by
    rw [h1]
    unfold getCachedResult at hcache2 ⊢
    exact hcache2
  refine ⟨by rw [h1], by rw [h1], ?_, ?_⟩
  · rw [listToolsEntry, hcache2']
    rw [h1]
    simp
  · rw [listToolsEntry, hcache2']
    rw [h1]
    simp

/-- Witness for `listTools_dedup` on an initially empty state. -/
theorem listTools_dedup_witness :
    (listToolsEntry "calculator-server" 5
      ⟨fun _ => none, fun _ => none, 0, []⟩).1
      = CallReturn.pendingPromise 0
    ∧ (listToolsEntry "calculator-server" 5
      ⟨fun _ => none, fun _ => none, 0, []⟩).2.sent
      = [] ++ [createRequestKey "listTools" "calculator-server" none]
    ∧ (listToolsEntry "calculator-server" 7
        (listToolsEntry "calculator-server" 5
          ⟨fun _ => none, fun _ => none, 0, []⟩).2).1
      = CallReturn.pendingPromise 0
    ∧ (listToolsEntry "calculator-server" 7
        (listToolsEntry "calculator-server" 5
          ⟨fun _ => none, fun _ => none, 0, []⟩).2).2.sent
      = [] ++ [createRequestKey "listTools" "calculator-server" none] :=
  listTools_dedup "calculator-server" 5 7
    ⟨fun _ => none, fun _ => none, 0, []⟩ rfl rfl rfl

/-!
## `readResource` message-flow logging and `ProtocolInspector` pairing
-/

/-- The `MCPMessage.type` field. -/
inductive MsgKind where
  | request
  | response
  | notification
deriving DecidableEq, Repr

/-- The `MCPMessage.direction` field. -/
inductive Direction where
  | clientToServer
  | serverToClient
deriving DecidableEq, Repr

/-- The `MCPMessage` interface of the hook (payloads kept as strings). -/
structure MCPMessage where
  id : String
  timestamp : Nat
  type : MsgKind
  method : Option String
  params : Option String
  result : Option String
  error : Option String
  serverName : String
  direction : Direction
deriving DecidableEq, Repr

/-- The `requestMessage` that `readResource` logs before sending:
`id: requestId`, `type: 'request'`, `method: 'resources/read'`. -/
def readResourceRequestMsg (requestId serverName uri : String) (ts : Nat) :
    MCPMessage :=
  ⟨requestId, ts, .request, some "resources/read", some uri, none, none,
    serverName, .clientToServer⟩

/-- The `responseMessage` that `readResource`'s `handleResponse` logs:
`` id: `${requestId}_response` ``, `type: 'response'`. -/
def readResourceResponseMsg (requestId serverName : String)
    (result err : Option String) (ts : Nat) : MCPMessage :=
  ⟨requestId ++ "_response", ts, .response, none, none, result, err,
    serverName, .serverToClient⟩

/-- The `errorMessage` that `readResource`'s timeout logs:
`` id: `${requestId}_timeout` ``, `type: 'response'`. -/
def readResourceTimeoutMsg (requestId serverName : String) (ts : Nat) :
    MCPMessage :=
  ⟨requestId ++ "_timeout", ts, .response, none, none, none,
    some "Read resource timeout", serverName, .serverToClient⟩

/-- The `ProtocolInspector` component's `pairedResponse`: for a selected request, the
first logged response whose `id` equals the request's `id`; `undefined`
for a missing or non-request selection. -/
def pairedResponse (message : Option MCPMessage)
    (messages : List MCPMessage) : Option MCPMessage :=
  match message with
  | none => none
  | some msg =>
    if msg.type = MsgKind.request then
      messages.find? (fun m => m.type == MsgKind.response && m.id == msg.id)
    else none

theorem append_ne_self (a b : String) (hb : b.length ≠ 0) : a ++ b ≠ a := by
  intro h
  have hlen := congrArg String.length h
  rw [String.length_append] at hlen
  omega

/-- Claim C1 counterexample — The claim that the response logged by
`readResource` carries the id of its request event is false at a concrete
call: the logged response's id is the request id with `_response`
appended, so it differs from the request's id and `pairedResponse` finds
no pair for the request even though its response was logged. -/
theorem responsePairing_counterexample :
    (readResourceResponseMsg "read_resource_1" "file-server"
        (some "contents") none 200).id
      ≠ (readResourceRequestMsg "read_resource_1" "file-server"
        "note://1" 100).id
    ∧ pairedResponse
        (some (readResourceRequestMsg "read_resource_1" "file-server"
          "note://1" 100))
        [readResourceRequestMsg "read_resource_1" "file-server" "note://1" 100,
         readResourceResponseMsg "read_resource_1" "file-server"
           (some "contents") none 200]
      = none := by
  constructor
  · decide
  · rfl

/-- Claim C1 amended — `readResource` logs its success/error response with
id `requestId ++ "_response"` and its timeout response with id
`requestId ++ "_timeout"`; both differ from the logged request's id
`requestId`, so an observer pairing by id equality (`pairedResponse`)
never pairs a readResource request with its logged response. -/
theorem responsePairing_amended (requestId serverName uri : String)
    (result err : Option String) (ts1 ts2 : Nat) :
    (readResourceResponseMsg requestId serverName result err ts2).id
      = requestId ++ "_response"
    ∧ (readResourceTimeoutMsg requestId serverName ts2).id
      = requestId ++ "_timeout"
    ∧ (readResourceResponseMsg requestId serverName result err ts2).id
      ≠ (readResourceRequestMsg requestId serverName uri ts1).id
    ∧ (readResourceTimeoutMsg requestId serverName ts2).id
      ≠ (readResourceRequestMsg requestId serverName uri ts1).id
    ∧ pairedResponse
        (some (readResourceRequestMsg requestId serverName uri ts1))
        [readResourceRequestMsg requestId serverName uri ts1,
         readResourceResponseMsg requestId serverName result err ts2]
      = none := by
  have hr : requestId ++ "_response" ≠ requestId :=
    append_ne_self requestId "_response" (by decide)
  have ht : requestId ++ "_timeout" ≠ requestId :=
    append_ne_self requestId "_timeout" (by decide)
  refine ⟨rfl, rfl, hr, ht, ?_⟩
  simp only [pairedResponse, readResourceRequestMsg, if_pos rfl]
  rw [List.find?_cons_of_neg, List.find?_cons_of_neg, List.find?_nil]
  all_goals simp [readResourceRequestMsg, readResourceResponseMsg, hr]

/-!
## Calculator server — `CallToolRequestSchema` handler

JS numbers are modelled as exact rationals; `undefined` (a missing
argument property) and `NaN` are explicit values, and `untracked` stands
for any double whose exact value the model does not follow (IEEE rounding
of non-integer `Math.pow`, irrational `Math.sqrt`, division overflow,
infinities). No claim inspects an `untracked` value.
-/

/-- A JS value reaching the calculator's arithmetic. -/
inductive JSVal where
  | jsUndefined
  | num (q : ℚ)
  | nan
  | untracked
deriving DecidableEq, Repr

/-- Template-literal rendering of a number: integer-valued doubles render
as their integer digits, as in JS; the rendering of non-integer values is
abstracted and inspected by no claim. -/
def renderNum (q : ℚ) : String :=
  if q.den = 1 then toString q.num else toString q

/-- Template-literal rendering of a JS value (`${x}`). The rendering of
`untracked` values is inspected by no claim. -/
def render : JSVal → String
  | .jsUndefined => "undefined"
  | .num q => renderNum q
  | .nan => "NaN"
  | .untracked => "?"

/-- JS `+` on the modelled values: exact on numbers; any operation
touching `undefined` or `NaN` is `NaN`. -/
def jsAdd : JSVal → JSVal → JSVal
  | .num a, .num b => .num (a + b)
  | .jsUndefined, _ => .nan
  | _, .jsUndefined => .nan
  | .nan, _ => .nan
  | _, .nan => .nan
  | _, _ => .untracked

/-- JS `-` on the modelled values. -/
def jsSub : JSVal → JSVal → JSVal
  | .num a, .num b => .num (a - b)
  | .jsUndefined, _ => .nan
  | _, .jsUndefined => .nan
  | .nan, _ => .nan
  | _, .nan => .nan
  | _, _ => .untracked

/-- JS `*` on the modelled values. -/
def jsMul : JSVal → JSVal → JSVal
  | .num a, .num b => .num (a * b)
  | .jsUndefined, _ => .nan
  | _, .jsUndefined => .nan
  | .nan, _ => .nan
  | _, .nan => .nan
  | _, _ => .untracked

/-- JS `/` on the modelled values. The divisor-zero case (±Infinity or
NaN in JS) is unreachable in the handler, which guards `b === 0` first. -/
def jsDiv : JSVal → JSVal → JSVal
  | .num a, .num b => if b = 0 then .untracked else .num (a / b)
  | .jsUndefined, _ => .nan
  | _, .jsUndefined => .nan
  | .nan, _ => .nan
  | _, .nan => .nan
  | _, _ => .untracked

/-- The builtin `Math.pow`, tracked exactly for a rational base and an integer
exponent (with nonzero base when the exponent is negative). -/
def jsPow : JSVal → JSVal → JSVal
  | .num a, .num b =>
    if b.den = 1 then
      if 0 ≤ b.num then .num (a ^ b.num.toNat)
      else if a = 0 then .untracked
      else .num ((a ^ (-b.num).toNat)⁻¹)
    else .untracked
  | _, _ => .untracked

/-- The builtin `Math.sqrt`, tracked exactly for nonnegative rationals with an exact
rational square root. -/
def jsSqrt : JSVal → JSVal
  | .num q =>
    if 0 ≤ q.num ∧ Nat.sqrt q.num.toNat * Nat.sqrt q.num.toNat = q.num.toNat
        ∧ Nat.sqrt q.den * Nat.sqrt q.den = q.den
    then .num ((Nat.sqrt q.num.toNat : ℚ) / (Nat.sqrt q.den : ℚ))
    else .untracked
  | _ => .untracked

/-- The guard `b === 0`: true only when the value is the number 0. -/
def jsEqZero : JSVal → Bool
  | .num q => q = 0
  | _ => false

/-- The guard `number < 0`: true only for a negative number (`undefined < 0` and
`NaN < 0` are false in JS). -/
def jsLtZero : JSVal → Bool
  | .num q => q < 0
  | _ => false

/-- The `request.params.arguments` object: property access yields
`undefined` for an absent key. -/
def ArgObj : Type := String → Option JSVal

/-- Property access `args.x`: JS property access, `undefined` when absent. -/
def getArg (args : ArgObj) (name : String) : JSVal :=
  (args name).getD .jsUndefined

/-- One `{type: 'text', text}` content item. -/
structure ToolContent where
  type : String
  text : String
deriving DecidableEq, Repr

/-- A `callTool` result: content plus the `isError` flag (absent = false). -/
structure ToolResult where
  content : List ToolContent
  isError : Bool
deriving DecidableEq, Repr

/-- A successful handler return: one text content, no error flag. -/
def textResult (t : String) : ToolResult := ⟨[⟨"text", t⟩], false⟩

/-- The catch block's return:
`{content: [{type: 'text', text: 'Error: ...'}], isError: true}`. -/
def errorResult (msg : String) : ToolResult :=
  ⟨[⟨"text", "Error: " ++ msg⟩], true⟩

/-- The body of the calculator's `CallToolRequestSchema` handler inside
`try`: the `!args` guard, then the `switch` on the tool name;
`Except.error` is a thrown `Error(msg)`. -/
def calcBody (name : String) (args : Option ArgObj) : Except String ToolResult :=
  match args with
  | none => .error "Arguments are required"
  | some args =>
    if name = "add" then
      let a := getArg args "a"
      let b := getArg args "b"
      .ok (textResult (render a ++ " + " ++ render b ++ " = " ++ render (jsAdd a b)))
    else if name = "subtract" then
      let a := getArg args "a"
      let b := getArg args "b"
      .ok (textResult (render a ++ " - " ++ render b ++ " = " ++ render (jsSub a b)))
    else if name = "multiply" then
      let a := getArg args "a"
      let b := getArg args "b"
      .ok (textResult (render a ++ " × " ++ render b ++ " = " ++ render (jsMul a b)))
    else if name = "divide" then
      let a := getArg args "a"
      let b := getArg args "b"
      if jsEqZero b then .error "Division by zero is not allowed"
      else .ok (textResult (render a ++ " ÷ " ++ render b ++ " = " ++ render (jsDiv a b)))
    else if name = "power" then
      let base := getArg args "base"
      let exponent := getArg args "exponent"
      .ok (textResult (render base ++ "^" ++ render exponent ++ " = "
        ++ render (jsPow base exponent)))
    else if name = "sqrt" then
      let number := getArg args "number"
      if jsLtZero number then
        .error "Cannot calculate square root of negative number"
      else .ok (textResult ("√" ++ render number ++ " = " ++ render (jsSqrt number)))
    else .error ("Unknown tool: " ++ name)

/-- The full handler: the `try`/`catch` wrapping of `calcBody`, turning
every thrown error into an `isError: true` text result. -/
def callToolHandler (name : String) (args : Option ArgObj) : ToolResult :=
  match calcBody name args with
  | .ok r => r
  | .error msg => errorResult msg

/-- One entry of the MCP client's `servers` map, as
`executeToolFromDashboard` reads it: the `connected` flag and the
session's `client.callTool` method; an `Except.error` models a `callTool`
await that throws, with the thrown `Error`'s message. -/
structure HubServer where
  connected : Bool
  callTool : String → Option ArgObj → Except String ToolResult

/-- A `tool-response` control-channel message as serialized by
`executeToolFromDashboard`: `{type: 'tool-response', requestId, result}`
on success or `{type: 'tool-response', requestId, error: {message}}` on
failure (`error` holds the `error.message` string). -/
structure HubReply where
  msgType : String
  requestId : String
  result : Option ToolResult
  error : Option String
deriving DecidableEq, Repr

/-- The MCP client's `executeToolFromDashboard(ws, requestId, serverName,
toolName, params)`: replies `Server ... not found` when the `servers` map
has no entry, `Server ... is not connected` when it is not connected,
otherwise forwards `client.callTool({name, arguments})` and sends its
result under the command's `requestId`; a thrown error is caught and sent
as the error message. Every send is guarded by `ws.readyState === 1`,
modelled by `wsOpen`; `none` means nothing was sent. -/
def executeToolFromDashboard (servers : String → Option HubServer)
    (wsOpen : Bool) (requestId serverName toolName : String)
    (params : Option ArgObj) : Option HubReply :=
  if wsOpen then
    some (match servers serverName with
      | none =>
        ⟨"tool-response", requestId, none,
          some ("Server " ++ serverName ++ " not found")⟩
      | some server =>
        if server.connected = false then
          ⟨"tool-response", requestId, none,
            some ("Server " ++ serverName ++ " is not connected")⟩
        else
          match server.callTool toolName params with
          | .ok result => ⟨"tool-response", requestId, some result, none⟩
          | .error e => ⟨"tool-response", requestId, none, some e⟩)
  else none

/-- The connected calculator backend as a `servers`-map entry: its
`callTool` runs the calculator's handler, which never throws (its body is
wrapped in `try`/`catch`). -/
def calculatorSession : HubServer :=
  ⟨true, fun name args => Except.ok (callToolHandler name args)⟩

/-- A `servers` map holding the connected calculator server. -/
def calcServers : String → Option HubServer :=
  fun n => if n = "calculator-server" then some calculatorSession else none

/-- The argument object `{a: 5, b: 3}`. -/
def addArgs53 : ArgObj :=
  fun n => if n = "a" then some (.num 5) else if n = "b" then some (.num 3) else none

/-- Claim C8 — A `callTool` request `add {a: 5, b: 3}` on the connected
calculator returns `{content: [{type: 'text', text: '5 + 3 = 8'}]}` with
no error flag, and the hub's `tool-response` for the command carries
exactly that content under the command's `requestId`. -/
theorem calculator_add_five_three :
    executeToolFromDashboard calcServers true "r1" "calculator-server" "add"
        (some addArgs53)
      = some ⟨"tool-response", "r1",
          some ⟨[⟨"text", "5 + 3 = 8"⟩], false⟩, none⟩ := by
  have hsum : (5 : ℚ) + 3 = 8 := by norm_num
  have hct : callToolHandler "add" (some addArgs53)
      = textResult ("5" ++ " + " ++ "3" ++ " = " ++ renderNum ((5 : ℚ) + 3)) := rfl
  rw [hsum] at hct
  have hfwd : executeToolFromDashboard calcServers true "r1" "calculator-server"
      "add" (some addArgs53)
      = some ⟨"tool-response", "r1",
          some (callToolHandler "add" (some addArgs53)), none⟩ := rfl
  rw [hfwd, hct]
  decide

theorem calcBody_ok_shape (name : String) (args : Option ArgObj)
    (r : ToolResult) (h : calcBody name args = .ok r) :
    ∃ t, r = textResult t := by
  cases args with
  | none =>
    simp only [calcBody] at h
    exact Except.noConfusion h
  | some a =>
    simp only [calcBody] at h
    split_ifs at h <;>
      first
        | exact Except.noConfusion h
        | (injection h with h1; exact ⟨_, h1.symm⟩)

/-- Claim C10 — The calculator's `callTool` handler is total: every input
(including a missing argument object, division by zero, a negative
square-root operand and an unknown tool name) yields a well-formed result
with a single text content; every thrown error is caught and reported as
`{content: [{type: 'text', text: 'Error: ...'}], isError: true}`, and
`isError` is set exactly on the thrown-error paths. -/
theorem calculator_total_error_shape (name : String) (args : Option ArgObj) :
    (∃ t, callToolHandler name args = textResult t
      ∨ callToolHandler name args = errorResult t)
    ∧ (∀ msg, calcBody name args = .error msg →
        callToolHandler name args = errorResult msg)
    ∧ ((callToolHandler name args).isError = true →
        ∃ msg, calcBody name args = Except.error msg
          ∧ callToolHandler name args = errorResult msg) := by
  refine ⟨?_, ?_, ?_⟩
  · cases hr : calcBody name args with
    | ok r =>
      obtain ⟨t, rfl⟩ := calcBody_ok_shape name args r hr
      exact ⟨t, Or.inl (by rw [callToolHandler, hr])⟩
    | error msg =>
      exact ⟨msg, Or.inr (by rw [callToolHandler, hr])⟩
  · intro msg h
    rw [callToolHandler, h]
  · intro herr
    cases hr : calcBody name args with
    | ok r =>
      obtain ⟨t, rfl⟩ := calcBody_ok_shape name args r hr
      rw [callToolHandler, hr] at herr
      exact absurd herr (by simp [textResult])
    | error msg =>
      exact ⟨msg, rfl, by rw [callToolHandler, hr]⟩

/-- Witness for `calculator_total_error_shape`: division by zero is
reported as an error result. -/
theorem calculator_total_error_shape_witness :
    callToolHandler "divide"
      (some (fun n => if n = "a" then some (.num 1)
        else if n = "b" then some (.num 0) else none))
      = errorResult "Division by zero is not allowed" :=
  (calculator_total_error_shape "divide"
    (some (fun n => if n = "a" then some (.num 1)
      else if n = "b" then some (.num 0) else none))).2.1
    "Division by zero is not allowed" rfl

end MCPExplorer
